import Mathlib

/-!
Verification of the macau_bus repository's core logic against its
natural-language specification.

The development shallow-embeds two modules:

* `src/bus_data.py` — the arrival detector (`process_response`,
  `record_bus_arrival`) and the stale-state reaper (`cleanup_old_data`).
  Python's module-level dicts `bus_station_status` and `last_seen_timestamps`
  become the explicit record `DetState`; the sqlite append becomes an
  emitted `Event` value, with a boolean `ok` modelling whether the
  `INSERT`/`commit` succeeded (an exception aborts the rest of
  `process_response`, exactly as in `main`'s try/except).

* `src/src/data_processing.py` — trip segmentation, pairwise travel-time
  samples, the two-stage outlier filter (`remove_outliers`) and the
  wait-time prediction arithmetic (`get_wait_time` inside `get_recent_bus`).
  Pandas frames become lists of records; timestamps become integers
  (seconds); sample statistics are exact rationals.
-/

namespace MacauBus

/-- Key type `StationKey`: `(route, station_code, station_index)`, exactly the
`station_key = (route, station_code, station_index)` tuple of
`process_response` (bus_data.py line 158). -/
abbrev StationKey := String × String × Nat

/-- One row appended to the `bus_data` table by `record_bus_arrival`
(bus_data.py lines 108-111): `(route, bus_plate, station_code,
arrival_time, station_index)`.  `arrival_time` is modelled as integer
seconds instead of a formatted wall-clock string. -/
structure Event where
  route : String
  busPlate : String
  staCode : String
  arrTime : Int
  sidx : Nat
deriving DecidableEq

/-- The detector's mutable module-level state (bus_data.py lines 34-35):
`bus_station_status : bus_plate → station_key → status` and
`last_seen_timestamps : bus_plate → timestamp`.  Python dict lookups that
may miss become `Option`-valued functions. -/
structure DetState where
  status : String → StationKey → Option String
  lastSeen : String → Option Int

/-- Both dicts start empty. -/
def emptyState : DetState := ⟨fun _ _ => none, fun _ => none⟩

/-- Source line `bus_station_status.pop(bus_plate, None)` (bus_data.py line 170):
drop every StationKey entry of one plate. -/
def popPlate (st : DetState) (p : String) : DetState :=
  ⟨fun q => if q = p then fun _ => none else st.status q, st.lastSeen⟩

/-- Source line `bus_station_status.setdefault(bus_plate, \x7b\x7d)[station_key] = status`
(bus_data.py line 176): set one plate's entry at one key, leaving every
other entry alone. -/
def setStatus (st : DetState) (p : String) (k : StationKey) (s : String) : DetState :=
  ⟨fun q k2 => if q = p ∧ k2 = k then some s else st.status q k2, st.lastSeen⟩

/-- Source line `last_seen_timestamps[bus_plate] = datetime.now().timestamp()`
(bus_data.py line 179). -/
def touch (st : DetState) (p : String) (now : Int) : DetState :=
  ⟨st.status, fun q => if q = p then some now else st.lastSeen q⟩

/-- The constant `STALE_THRESHOLD_MINUTES * 60` (bus_data.py lines 29, 188). -/
def staleThresholdSeconds : Int := 30 * 60

/-- A plate is listed in `stale_buses` (bus_data.py lines 189-193) iff it
has a last-seen timestamp and that timestamp is older than
`current_timestamp - STALE_THRESHOLD_MINUTES * 60`. -/
def isStale (st : DetState) (now : Int) (p : String) : Bool :=
  match st.lastSeen p with
  | some ts => decide (ts < now - staleThresholdSeconds)
  | none => false

/-- Function `cleanup_old_data` (bus_data.py lines 184-196): pop every stale plate
from both dicts. -/
def cleanup (st : DetState) (now : Int) : DetState :=
  ⟨fun p => if isStale st now p then fun _ => none else st.status p,
   fun p => if isStale st now p then none else st.lastSeen p⟩

/-- The observable outcome of handling one `(bus_plate, status)` pair in
`process_response`: which plate and station index were handled, the stored
status that was compared (`previous_status`, line 163), the incoming
status, and the event appended by `record_bus_arrival` (if any). -/
structure Tr where
  plate : String
  sidx : Nat
  prev : Option String
  incoming : String
  ev : Option Event
deriving DecidableEq

/-- The body of the inner `for bus in station.get("busInfo", [])` loop of
`process_response` (bus_data.py lines 159-179) for a single bus:

* line 168: at `station_index == 0`, if `previous_status != status` and
  `status == "0"`, pop the plate's entries (line 170, executed *before*
  the sqlite insert) and append an event;
* line 173: at `station_index > 0`, if `previous_status != status` and
  `status == "1"`, append an event;
* line 176: store the incoming status;
* lines 178-179: refresh the last-seen timestamp when the status changed.

`ok` says whether the sqlite insert succeeds.  When it fails the raised
exception aborts the function before line 176, so neither the status store
nor the last-seen refresh happens; the returned flag `false` signals the
abort. -/
def finishBus (st : DetState) (now : Int) (plate : String) (key : StationKey)
    (prev : Option String) (status : String) : DetState :=
  let st2 := setStatus st plate key status
  if prev ≠ some status then touch st2 plate now else st2

def processBus (ok : Bool) (st : DetState) (now : Int) (route staCode : String)
    (sidx : Nat) (plate status : String) : DetState × Tr × Bool :=
  let key : StationKey := (route, staCode, sidx)
  let prev := st.status plate key
  if sidx = 0 ∧ prev ≠ some status ∧ status = "0" then
    let st1 := popPlate st plate
    if ok then
      (finishBus st1 now plate key prev status,
       ⟨plate, sidx, prev, status, some ⟨route, plate, staCode, now, sidx⟩⟩, true)
    else (st1, ⟨plate, sidx, prev, status, none⟩, false)
  else if 0 < sidx ∧ prev ≠ some status ∧ status = "1" then
    if ok then
      (finishBus st now plate key prev status,
       ⟨plate, sidx, prev, status, some ⟨route, plate, staCode, now, sidx⟩⟩, true)
    else (st, ⟨plate, sidx, prev, status, none⟩, false)
  else
    (finishBus st now plate key prev status, ⟨plate, sidx, prev, status, none⟩, true)

/-- One station of a snapshot: `staCode` plus its `busInfo` list of
`(busPlate, status)` pairs (bus_data.py lines 155-161). -/
abbrev StationIn := String × List (String × String)

/-- One polled snapshot handed to `process_response`: the poll's wall
clock, the route, and the `routeInfo` station list. -/
abbrev SnapshotIn := Int × String × List StationIn

/-- The inner bus loop of `process_response` over one station's `busInfo`,
with every sqlite insert succeeding. -/
def runBuses : DetState → Int → String → String → Nat → List (String × String) →
    DetState × List Tr
  | st, _, _, _, _, [] => (st, [])
  | st, now, route, sc, i, (pl, s) :: rest =>
    let r1 := processBus true st now route sc i pl s
    let r2 := runBuses r1.1 now route sc i rest
    (r2.1, r1.2.1 :: r2.2)

/-- The outer `for station_index, station in enumerate(route_info)` loop
(bus_data.py line 155), consuming the already-enumerated station list. -/
def runStations : DetState → Int → String → List (Nat × StationIn) → DetState × List Tr
  | st, _, _, [] => (st, [])
  | st, now, route, (i, (sc, buses)) :: rest =>
    let r1 := runBuses st now route sc i buses
    let r2 := runStations r1.1 now route rest
    (r2.1, r1.2 ++ r2.2)

/-- Function `process_response` on one snapshot (bus_data.py lines 138-181):
enumerate the stations, process every bus, then `cleanup_old_data()`. -/
def runSnapshot (st : DetState) (now : Int) (route : String)
    (stations : List StationIn) : DetState × List Tr :=
  let r := runStations st now route stations.enum
  (cleanup r.1 now, r.2)

/-- A sequence of polled snapshots, as produced by `main`'s loop, with
every fetch and insert succeeding. -/
def runSnapshots : DetState → List SnapshotIn → DetState × List Tr
  | st, [] => (st, [])
  | st, (now, route, stations) :: rest =>
    let r1 := runSnapshot st now route stations
    let r2 := runSnapshots r1.1 rest
    (r2.1, r1.2 ++ r2.2)

/-- What one processed bus observation guarantees: an appended event
carries the observation's plate and station index, and an event is
appended exactly under the source's two emission conditions. -/
def TrInv (t : Tr) : Prop :=
  (∀ e, t.ev = some e → e.busPlate = t.plate ∧ e.sidx = t.sidx) ∧
  (t.sidx = 0 → (t.ev.isSome ↔ (t.prev ≠ some t.incoming ∧ t.incoming = "0"))) ∧
  (0 < t.sidx → (t.ev.isSome ↔ (t.prev ≠ some t.incoming ∧ t.incoming = "1")))

lemma processBus_inv (st : DetState) (now : Int) (route sc : String) (i : Nat)
    (pl s : String) : TrInv (processBus true st now route sc i pl s).2.1 := by
  unfold processBus
  by_cases h1 : i = 0 ∧ st.status pl (route, sc, i) ≠ some s ∧ s = "0"
  · rw [if_pos h1, if_pos rfl]
    dsimp only [TrInv]
    refine ⟨fun e he => ?_, fun _ => ?_, fun hi => ?_⟩
    · cases he; exact ⟨rfl, rfl⟩
    · simp only [Option.isSome_some, true_iff]
      exact ⟨h1.2.1, h1.2.2⟩
    · exact absurd h1.1 (by omega)
  · rw [if_neg h1]
    by_cases h2 : 0 < i ∧ st.status pl (route, sc, i) ≠ some s ∧ s = "1"
    · rw [if_pos h2, if_pos rfl]
      dsimp only [TrInv]
      refine ⟨fun e he => ?_, fun hi => ?_, fun _ => ?_⟩
      · cases he; exact ⟨rfl, rfl⟩
      · exact absurd hi (by have := h2.1; omega)
      · simp only [Option.isSome_some, true_iff]
        exact ⟨h2.2.1, h2.2.2⟩
    · rw [if_neg h2]
      dsimp only [TrInv]
      refine ⟨fun e he => ?_, fun hi => ?_, fun hi => ?_⟩
      · cases he
      · simp only [Option.isSome_none, Bool.false_eq_true, false_iff]
        intro hc
        exact h1 ⟨hi, hc.1, hc.2⟩
      · simp only [Option.isSome_none, Bool.false_eq_true, false_iff]
        intro hc
        exact h2 ⟨hi, hc.1, hc.2⟩

lemma runBuses_inv (now : Int) (route sc : String) (i : Nat) :
    ∀ (buses : List (String × String)) (st : DetState),
      ∀ t ∈ (runBuses st now route sc i buses).2, TrInv t := by
  intro buses
  induction buses with
  | nil => intro st t ht; simp [runBuses] at ht
  | cons b rest ih =>
    intro st t ht
    obtain ⟨pl, s⟩ := b
    simp only [runBuses, List.mem_cons] at ht
    rcases ht with h | h
    · subst h; exact processBus_inv ..
    · exact ih _ t h

lemma runStations_inv (now : Int) (route : String) :
    ∀ (stations : List (Nat × StationIn)) (st : DetState),
      ∀ t ∈ (runStations st now route stations).2, TrInv t := by
  intro stations
  induction stations with
  | nil => intro st t ht; simp [runStations] at ht
  | cons hd rest ih =>
    intro st t ht
    obtain ⟨i, sc, buses⟩ := hd
    simp only [runStations, List.mem_append] at ht
    rcases ht with h | h
    · exact runBuses_inv now route sc i buses st t h
    · exact ih _ t h

lemma runSnapshots_inv :
    ∀ (snaps : List SnapshotIn) (st : DetState),
      ∀ t ∈ (runSnapshots st snaps).2, TrInv t := by
  intro snaps
  induction snaps with
  | nil => intro st t ht; simp [runSnapshots] at ht
  | cons hd rest ih =>
    intro st t ht
    obtain ⟨now, route, stations⟩ := hd
    simp only [runSnapshots, runSnapshot, List.mem_append] at ht
    rcases ht with h | h
    · exact runStations_inv now route stations.enum st t h
    · exact ih _ t h

/-- Per-trace-entry counting lemma behind C1: appended events at
station index 0 for a plate are in bijection with the processed
observations whose stored status differed from an incoming `"0"`. -/
lemma count_events_eq_count_transitions (p : String) :
    ∀ l : List Tr, (∀ t ∈ l, TrInv t) →
      (l.filterMap (fun t => t.ev)).countP
          (fun e => decide (e.busPlate = p ∧ e.sidx = 0)) =
      l.countP
          (fun t => decide (t.plate = p ∧ t.sidx = 0 ∧
            t.prev ≠ some t.incoming ∧ t.incoming = "0")) := by
  intro l
  induction l with
  | nil => intro _; rfl
  | cons t ts ih =>
    intro h
    have hinv := h t (List.mem_cons_self t ts)
    have hts : ∀ x ∈ ts, TrInv x := fun x hx => h x (List.mem_cons_of_mem t hx)
    cases hev : t.ev with
    | none =>
      rw [List.filterMap_cons_none hev, List.countP_cons, ih hts]
      have hfalse : ¬(t.plate = p ∧ t.sidx = 0 ∧
          t.prev ≠ some t.incoming ∧ t.incoming = "0") := by
        rintro ⟨_, h0, hpre, hinc⟩
        have := (hinv.2.1 h0).mpr ⟨hpre, hinc⟩
        rw [hev] at this
        cases this
      simp [hfalse]
    | some e =>
      rw [List.filterMap_cons_some hev, List.countP_cons, List.countP_cons,
        ih hts]
      congr 1
      obtain ⟨hbp, hbi⟩ := hinv.1 e hev
      by_cases h0 : t.sidx = 0
      · have hcond := (hinv.2.1 h0).mp (by rw [hev]; rfl)
        have hprev : t.prev ≠ some "0" := by
          rw [← hcond.2]
          exact hcond.1
        rw [hbp, hbi]
        simp [h0, hcond.2, hprev]
      · rw [hbp, hbi]
        simp [h0]

/-- A concrete snapshot for C1's idempotence scenario: route `"R"`, a
single start station `"S0"`, one bus `"A"` reporting status `"0"`. -/
def snapW : SnapshotIn := (0, "R", [("S0", [("A", "0")])])

/-- C1: over any processed snapshot sequence, the number of events
appended at station index 0 for a plate equals the number of processed
observations at index 0 for that plate whose stored status differed from
the incoming status with the incoming status `"0"`; and concretely,
processing the same `"0"`-at-index-0 snapshot twice appends exactly one
index-0 event for the bus, not two. -/
theorem c1_index0_event_count :
    (∀ (st : DetState) (snaps : List SnapshotIn) (p : String),
      ((runSnapshots st snaps).2.filterMap (fun t => t.ev)).countP
          (fun e => decide (e.busPlate = p ∧ e.sidx = 0)) =
      (runSnapshots st snaps).2.countP
          (fun t => decide (t.plate = p ∧ t.sidx = 0 ∧
            t.prev ≠ some t.incoming ∧ t.incoming = "0"))) ∧
    ((runSnapshots emptyState [snapW, snapW]).2.filterMap (fun t => t.ev)).countP
        (fun e => decide (e.busPlate = "A" ∧ e.sidx = 0)) = 1 :=
  ⟨fun st snaps p =>
    count_events_eq_count_transitions p _ (runSnapshots_inv snaps st),
   by decide⟩

/-- C2: in any processed snapshot sequence, an observation at a station
index greater than 0 appends an event if and only if the incoming status
is `"1"` and differs from the stored previous status (a missing stored
status also differs). -/
theorem c2_index_pos_emission_iff (st : DetState) (snaps : List SnapshotIn)
    (t : Tr) (ht : t ∈ (runSnapshots st snaps).2) (hi : 0 < t.sidx) :
    t.ev.isSome = true ↔ (t.prev ≠ some t.incoming ∧ t.incoming = "1") :=
  (runSnapshots_inv snaps st t ht).2.2 hi

/-- Concrete snapshot for the C2 witness: station `"S1"` at index 1 with
bus `"A"` reporting `"1"`. -/
def snapW2 : SnapshotIn := (0, "R", [("S0", []), ("S1", [("A", "1")])])

/-- Trace entry produced for bus `"A"` by `snapW2`. -/
def trW2 : Tr := ⟨"A", 1, none, "1", some ⟨"R", "A", "S1", 0, 1⟩⟩

theorem c2_index_pos_emission_iff_witness :
    trW2.ev.isSome = true ↔ (trW2.prev ≠ some trW2.incoming ∧ trW2.incoming = "1") :=
  c2_index_pos_emission_iff emptyState [snapW2] trW2 (by decide) (by decide)

/-- C3: if a detected transition's sqlite append fails, processing aborts
(`false` flag), no event is recorded, the stored status for that
`(bus_plate, StationKey)` is not advanced to the incoming status, and
re-processing the same observation afterwards detects the transition again
and appends the event. -/
theorem c3_failed_append_retries (st : DetState) (now now2 : Int)
    (route sc : String) (i : Nat) (pl s : String)
    (h : (i = 0 ∧ st.status pl (route, sc, i) ≠ some s ∧ s = "0") ∨
         (0 < i ∧ st.status pl (route, sc, i) ≠ some s ∧ s = "1")) :
    (processBus false st now route sc i pl s).2.2 = false ∧
    (processBus false st now route sc i pl s).2.1.ev = none ∧
    (processBus false st now route sc i pl s).1.status pl (route, sc, i) ≠ some s ∧
    (processBus true (processBus false st now route sc i pl s).1
        now2 route sc i pl s).2.1.ev.isSome = true := by
  rcases h with h | h
  · have hpop : (popPlate st pl).status pl (route, sc, i) = none := by
      simp [popPlate]
    unfold processBus
    rw [if_pos h, if_neg Bool.false_ne_true]
    refine ⟨rfl, rfl, ?_, ?_⟩
    · rw [hpop]; simp
    · rw [if_pos ⟨h.1, by rw [hpop]; simp, h.2.2⟩, if_pos rfl]
      rfl
  · have hne : ¬(i = 0 ∧ st.status pl (route, sc, i) ≠ some s ∧ s = "0") := by
      rintro ⟨h0, _, _⟩
      exact absurd h0 (by have := h.1; omega)
    unfold processBus
    rw [if_neg hne, if_pos h, if_neg Bool.false_ne_true]
    refine ⟨rfl, rfl, h.2.1, ?_⟩
    · rw [if_neg hne, if_pos h, if_pos rfl]
      rfl

theorem c3_failed_append_retries_witness :
    (processBus false emptyState 0 "R" "S0" 0 "A" "0").2.2 = false ∧
    (processBus false emptyState 0 "R" "S0" 0 "A" "0").2.1.ev = none ∧
    (processBus false emptyState 0 "R" "S0" 0 "A" "0").1.status "A" ("R", "S0", 0) ≠ some "0" ∧
    (processBus true (processBus false emptyState 0 "R" "S0" 0 "A" "0").1
        5 "R" "S0" 0 "A" "0").2.1.ev.isSome = true :=
  c3_failed_append_retries emptyState 0 5 "R" "S0" 0 "A" "0"
    (Or.inl ⟨rfl, by simp [emptyState], rfl⟩)

/-- C9: after the reaper drops a plate whose last-seen timestamp is older
than the 30-minute threshold, the plate's stored statuses and last-seen
record are gone, and its reappearance with status `"0"` at station index 0
appends a fresh event. -/
theorem c9_reaped_bus_reemits (st : DetState) (now : Int) (p : String) (ts : Int)
    (h1 : st.lastSeen p = some ts) (h2 : ts < now - staleThresholdSeconds)
    (now2 : Int) (route sc : String) :
    (cleanup st now).status p (route, sc, 0) = none ∧
    (cleanup st now).lastSeen p = none ∧
    (processBus true (cleanup st now) now2 route sc 0 p "0").2.1.ev.isSome = true := by
  have hst : isStale st now p = true := by
    unfold isStale
    rw [h1]
    exact decide_eq_true h2
  have hnone : (cleanup st now).status p (route, sc, 0) = none := by
    simp [cleanup, hst]
  refine ⟨hnone, by simp [cleanup, hst], ?_⟩
  unfold processBus
  rw [if_pos ⟨rfl, by rw [hnone]; simp, rfl⟩, if_pos rfl]
  rfl

/-- Concrete pre-reap state for the C9 witness: bus `"A"` stored with
status `"0"` at the start station and last seen at time 0. -/
def stW9 : DetState :=
  ⟨fun q k => if q = "A" ∧ k = ("R", "S0", 0) then some "0" else none,
   fun q => if q = "A" then some 0 else none⟩

theorem c9_reaped_bus_reemits_witness :
    (cleanup stW9 2000).status "A" ("R", "S0", 0) = none ∧
    (cleanup stW9 2000).lastSeen "A" = none ∧
    (processBus true (cleanup stW9 2000) 2005 "R" "S0" 0 "A" "0").2.1.ev.isSome = true :=
  c9_reaped_bus_reemits stW9 2000 "A" 0 (by simp [stW9]) (by decide) 2005 "R" "S0"

/-! ## Trip segmentation and travel-time samples
(`get_travel_time`, data_processing.py lines 341-406)

The SQL query returns `bus_data` rows ordered by
`bus_plate, arrival_time, station_index`; a row carries the plate, the
parsed arrival time (integer seconds here), the station index, and the
derived `station_name` string. -/

structure Row where
  plate : String
  time : Int
  sidx : Nat
  station : String
deriving DecidableEq, Inhabited

/-- Default row used with `List.getD` when stating index lemmas. -/
def dRow : Row := default

/-- The shift `data.groupby("bus_plate")["station_index"].shift(1)` at one row
(data_processing.py line 362): the station index of the latest earlier row
with the same plate, if any. -/
def prevSamePlateSidx (pre : List Row) (p : String) : Option Nat :=
  ((pre.filter (fun q => decide (q.plate = p))).getLast?).map (fun q => q.sidx)

/-- The flag `data["new_trip"]` at one row (data_processing.py lines 361-363):
`(station_index <= groupby-shifted station_index) | (bus_plate !=
shifted bus_plate)`.  In pandas a comparison against the shifted `NaN`
of a first row is `False` for `<=` and `True` for `!=`. -/
def newTripAt (pre : List Row) (r : Row) : Bool :=
  (match prevSamePlateSidx pre r.plate with
   | some s => decide (r.sidx ≤ s)
   | none => false) ||
  (match pre.getLast? with
   | some q => decide (q.plate ≠ r.plate)
   | none => true)

/-- Grouping by `trip_id = new_trip.cumsum()` (data_processing.py
line 365): since every row's id is the count of `new_trip` flags up to it
and the first row is always flagged, the groups are exactly the maximal
runs delimited by the flagged rows.  `pre` is the list of rows already
consumed (the shift context), `cur` the block being assembled. -/
def segGo : List Row → List Row → List Row → List (List Row)
  | _, cur, [] => if cur.isEmpty then [] else [cur]
  | pre, cur, r :: rest =>
    if newTripAt pre r then
      (if cur.isEmpty then [] else [cur]) ++ segGo (pre ++ [r]) [r] rest
    else
      segGo (pre ++ [r]) (cur ++ [r]) rest

/-- The trips of the ordered row list, in row order. -/
def segTrips (rows : List Row) : List (List Row) := segGo [] [] rows

/-- Record `TravelTimeSample`: one row of the produced travel-time frame
(data_processing.py lines 375-381). -/
structure Sample where
  startName : String
  endName : String
  travelTime : Int
deriving DecidableEq

/-- The sample formed from trip events `i < j`:
`(stations[i], stations[j], times[j] - times[i])`. -/
def mkSample (a b : Row) : Sample := ⟨a.station, b.station, b.time - a.time⟩

/-- Function `calculate_travel_times` on one trip group (data_processing.py
lines 368-381): `np.triu_indices(len(times), k=1)` enumerates all ordered
pairs `i < j` in row-major order, which is exactly: pair the head with
every later row, then recurse on the tail. -/
def pairSamples : List Row → List Sample
  | [] => []
  | r :: rs => rs.map (fun q => mkSample r q) ++ pairSamples rs

/-- The concatenation `data.groupby("trip_id").apply(calculate_travel_times)`
over the (contiguous, increasing) trip ids (data_processing.py
lines 383-385). -/
def travelTimes (rows : List Row) : List Sample :=
  ((segTrips rows).map pairSamples).flatten

/-- Two rows of one plate. -/
abbrev eqPlate (a b : Row) : Prop := a.plate = b.plate

/-- The ordering guarantee of the SQL `ORDER BY bus_plate, arrival_time,
station_index`: whenever two rows of the same plate appear in order, their
times are nondecreasing. -/
abbrev plateTimeLE (a b : Row) : Prop := a.plate = b.plate → a.time ≤ b.time

lemma newTripAt_nil (r : Row) : newTripAt [] r = true := rfl

/-- Every block produced by the segmentation consists of rows of a single
plate: a row only joins the current block when `new_trip` is false, which
requires its plate to equal the previous row's. -/
lemma segGo_chain :
    ∀ (rest : List Row), ∀ (pre cur : List Row),
      List.Chain' eqPlate cur →
      (cur = [] → pre = []) →
      (cur ≠ [] → cur.getLast? = pre.getLast?) →
      ∀ g ∈ segGo pre cur rest, List.Chain' eqPlate g := by
  intro rest
  induction rest with
  | nil =>
    intro pre cur hc _ _ g hg
    simp only [segGo] at hg
    by_cases he : cur.isEmpty <;> simp [he] at hg
    rwa [hg]
  | cons r rest ih =>
    intro pre cur hc hinit hlast g hg
    simp only [segGo] at hg
    by_cases hnt : newTripAt pre r = true
    · rw [if_pos hnt] at hg
      rcases List.mem_append.mp hg with hg1 | hg2
      · by_cases he : cur.isEmpty <;> simp [he] at hg1
        rwa [hg1]
      · refine ih (pre ++ [r]) [r] (List.chain'_singleton r) (by simp) ?_ g hg2
        intro _
        rw [List.getLast?_concat]
        rfl
    · rw [if_neg hnt] at hg
      have hcur : cur ≠ [] := by
        intro he
        rw [hinit he] at hnt
        exact hnt (newTripAt_nil r)
      have hnt' : newTripAt pre r = false := Bool.not_eq_true _ |>.mp hnt
      obtain ⟨q, hq, hqp⟩ : ∃ q, pre.getLast? = some q ∧ q.plate = r.plate := by
        unfold newTripAt at hnt'
        have h2 := (Bool.or_eq_false_iff.mp hnt').2
        cases hL : pre.getLast? with
        | none => rw [hL] at h2; cases h2
        | some q =>
          rw [hL] at h2
          exact ⟨q, rfl, by simpa using h2⟩
      refine ih (pre ++ [r]) (cur ++ [r]) ?_ (by simp) ?_ g hg
      · refine List.Chain'.append hc (List.chain'_singleton r) ?_
        intro x hx y hy
        rw [hlast hcur, hq] at hx
        simp only [Option.mem_def, Option.some.injEq] at hx
        simp only [List.head?_cons, Option.mem_def, Option.some.injEq] at hy
        rw [← hx, ← hy]
        exact hqp
      · intro _
        rw [List.getLast?_concat, List.getLast?_concat]

/-- Every block produced by the segmentation is a sublist of the full row
list. -/
lemma segGo_sublist :
    ∀ (rest : List Row), ∀ (pre cur : List Row), cur.Sublist pre →
      ∀ g ∈ segGo pre cur rest, g.Sublist (pre ++ rest) := by
  intro rest
  induction rest with
  | nil =>
    intro pre cur hsub g hg
    simp only [segGo] at hg
    by_cases he : cur.isEmpty <;> simp [he] at hg
    rw [hg, List.append_nil]
    exact hsub
  | cons r rest ih =>
    intro pre cur hsub g hg
    simp only [segGo] at hg
    by_cases hnt : newTripAt pre r = true
    · rw [if_pos hnt] at hg
      rcases List.mem_append.mp hg with hg1 | hg2
      · by_cases he : cur.isEmpty <;> simp [he] at hg1
        rw [hg1]
        exact hsub.trans (List.sublist_append_left pre (r :: rest))
      · have h2 := ih (pre ++ [r]) [r] (List.sublist_append_right pre [r]) g hg2
        rwa [List.append_assoc, List.singleton_append] at h2
    · rw [if_neg hnt] at hg
      have h2 := ih (pre ++ [r]) (cur ++ [r]) (hsub.append (List.Sublist.refl [r])) g hg
      rwa [List.append_assoc, List.singleton_append] at h2

lemma chain_eqPlate_mem :
    ∀ (rs : List Row) (r : Row), List.Chain' eqPlate (r :: rs) →
      ∀ q ∈ rs, q.plate = r.plate := by
  intro rs
  induction rs with
  | nil => intro r _ q hq; cases hq
  | cons b t ih =>
    intro r h q hq
    rw [List.chain'_cons] at h
    rcases List.mem_cons.mp hq with rfl | hq2
    · exact h.1.symm
    · exact (ih b h.2 q hq2).trans h.1.symm

/-- Within a single-plate block whose rows appear in the plate-then-time
order, every ordered pair yields a nonnegative travel time. -/
lemma pairSamples_nonneg :
    ∀ g : List Row, List.Pairwise plateTimeLE g → List.Chain' eqPlate g →
      ∀ s ∈ pairSamples g, 0 ≤ s.travelTime := by
  intro g
  induction g with
  | nil => intro _ _ s hs; cases hs
  | cons r rs ih =>
    intro hp hc s hs
    simp only [pairSamples, List.mem_append, List.mem_map] at hs
    rcases hs with ⟨q, hq, rfl⟩ | hs
    · have h1 : r.time ≤ q.time :=
        (List.pairwise_cons.mp hp).1 q hq (chain_eqPlate_mem rs r hc q hq).symm
      show 0 ≤ q.time - r.time
      omega
    · exact ih (List.pairwise_cons.mp hp).2 hc.tail s hs

/-- C10: on rows sorted by `(bus_plate, arrival_time)` — as the SQL query
guarantees — every travel-time sample is nonnegative: trips never cross a
plate boundary, and within a trip times are nondecreasing. -/
theorem c10_samples_nonneg (rows : List Row)
    (hs : List.Pairwise plateTimeLE rows) :
    ∀ s ∈ travelTimes rows, 0 ≤ s.travelTime := by
  intro s hs'
  simp only [travelTimes, List.mem_flatten, List.mem_map] at hs'
  obtain ⟨l, ⟨g, hg, rfl⟩, hsl⟩ := hs'
  have hchain :=
    segGo_chain rows [] [] List.chain'_nil (fun _ => rfl) (fun h => absurd rfl h) g hg
  have hsub := segGo_sublist rows [] [] (List.Sublist.refl []) g hg
  rw [List.nil_append] at hsub
  exact pairSamples_nonneg g (hs.sublist hsub) hchain s hsl

/-- Five events of one plate with station indices `[0, 1, 2, 0, 1]`, the
trip-segmentation example of the specification. -/
def exampleRows : List Row :=
  [⟨"A", 0, 0, "S0"⟩, ⟨"A", 60, 1, "S1"⟩, ⟨"A", 150, 2, "S2"⟩,
   ⟨"A", 1000, 0, "S0"⟩, ⟨"A", 1070, 1, "S1"⟩]

theorem c10_samples_nonneg_witness :
    (travelTimes exampleRows).all (fun s => decide (0 ≤ s.travelTime)) = true := by
  simp only [List.all_eq_true, decide_eq_true_eq]
  exact c10_samples_nonneg exampleRows (by decide)

/-- C4: a row is flagged as starting a new trip exactly when its station
index is ≤ the previous same-plate row's station index, or there is no
previous row at all, or the plate differs from the immediately preceding
row; and the index sequence `[0,1,2,0,1]` for one plate segments into
exactly the two trips `[0,1,2]` and `[0,1]`. -/
theorem c4_new_trip_rule :
    ((segTrips exampleRows).map (fun g => g.map (fun r => r.sidx)) = [[0, 1, 2], [0, 1]]) ∧
    (∀ (pre : List Row) (r : Row),
      newTripAt pre r = true ↔
        ((∃ s, prevSamePlateSidx pre r.plate = some s ∧ r.sidx ≤ s) ∨
         pre = [] ∨ (∃ q, pre.getLast? = some q ∧ q.plate ≠ r.plate))) := by
  constructor
  · decide
  · intro pre r
    cases h1 : prevSamePlateSidx pre r.plate with
    | none =>
      cases h2 : pre.getLast? with
      | none =>
        have hpre : pre = [] := List.getLast?_eq_none_iff.mp h2
        simp [newTripAt, h1, h2, hpre]
      | some q =>
        have hne : pre ≠ [] := by intro he; rw [he] at h2; cases h2
        simp [newTripAt, h1, h2, hne]
    | some s0 =>
      cases h2 : pre.getLast? with
      | none =>
        have hpre : pre = [] := List.getLast?_eq_none_iff.mp h2
        simp [newTripAt, h1, h2, hpre]
      | some q =>
        have hne : pre ≠ [] := by intro he; rw [he] at h2; cases h2
        simp [newTripAt, h1, h2, hne]

lemma pairSamples_length :
    ∀ g : List Row, 2 * (pairSamples g).length = g.length * (g.length - 1) := by
  intro g
  induction g with
  | nil => rfl
  | cons r rs ih =>
    simp only [pairSamples, List.length_append, List.length_map, List.length_cons]
    cases hn : rs.length with
    | zero =>
      rw [hn] at ih
      omega
    | succ k =>
      rw [hn] at ih
      simp only [Nat.add_sub_cancel] at ih ⊢
      nlinarith [ih]

lemma pairSamples_short (g : List Row) (h : g.length < 2) : pairSamples g = [] := by
  match g with
  | [] => rfl
  | [r] => rfl
  | a :: b :: t =>
    exfalso
    simp only [List.length_cons] at h
    omega

lemma pairSamples_mem_iff :
    ∀ (g : List Row) (s : Sample),
      s ∈ pairSamples g ↔
        ∃ i j, i < j ∧ j < g.length ∧ s = mkSample (g.getD i dRow) (g.getD j dRow) := by
  intro g
  induction g with
  | nil =>
    intro s
    constructor
    · intro h; cases h
    · rintro ⟨i, j, _, hj, _⟩
      exact absurd hj (Nat.not_lt_zero j)
  | cons r rs ih =>
    intro s
    simp only [pairSamples, List.mem_append, List.mem_map]
    constructor
    · rintro (⟨q, hq, rfl⟩ | h)
      · obtain ⟨j, hj, hget⟩ := List.mem_iff_getElem.mp hq
        refine ⟨0, j + 1, Nat.succ_pos j, by simpa using hj, ?_⟩
        rw [List.getD_cons_zero, List.getD_cons_succ,
          List.getD_eq_getElem _ _ hj, hget]
      · obtain ⟨i, j, hij, hj, rfl⟩ := (ih s).mp h
        refine ⟨i + 1, j + 1, by omega, by simpa using hj, ?_⟩
        rw [List.getD_cons_succ, List.getD_cons_succ]
    · rintro ⟨i, j, hij, hj, rfl⟩
      cases i with
      | zero =>
        cases j with
        | zero => exact absurd hij (by omega)
        | succ j2 =>
          left
          have hj2 : j2 < rs.length := by simpa using hj
          refine ⟨rs.getD j2 dRow, ?_, ?_⟩
          · rw [List.getD_eq_getElem _ _ hj2]
            exact List.getElem_mem hj2
          · rw [List.getD_cons_zero, List.getD_cons_succ]
      | succ i2 =>
        cases j with
        | zero => exact absurd hij (by omega)
        | succ j2 =>
          right
          refine (ih _).mpr ⟨i2, j2, by omega, by simpa using hj, ?_⟩
          rw [List.getD_cons_succ, List.getD_cons_succ]

/-- C5: for a trip's event list, the pairwise sample builder emits one
sample per ordered pair `i < j` — `n * (n - 1) / 2` of them, each with
start station of event `i`, end station of event `j`, and seconds
`time(j) - time(i)` — and a trip with fewer than two events emits no
sample. -/
theorem c5_all_ordered_pairs :
    (∀ g : List Row, 2 * (pairSamples g).length = g.length * (g.length - 1)) ∧
    (∀ (g : List Row) (s : Sample),
      s ∈ pairSamples g ↔
        ∃ i j, i < j ∧ j < g.length ∧ s = mkSample (g.getD i dRow) (g.getD j dRow)) ∧
    (∀ g : List Row, g.length < 2 → pairSamples g = []) :=
  ⟨pairSamples_length, pairSamples_mem_iff, pairSamples_short⟩

theorem c5_all_ordered_pairs_witness : pairSamples [dRow] = [] :=
  c5_all_ordered_pairs.2.2 [dRow] (by decide)

/-! ## Sample statistics, outlier filtering and wait-time prediction
(`remove_outliers`, data_processing.py lines 388-398, and `get_wait_time`
inside `get_recent_bus`, lines 245-271)

Pandas `Series.mean()` is `sum / n`; `Series.std()` uses `ddof = 1`, i.e.
`sqrt (Σ (x - mean)² / (n - 1))`.  Floats are modelled as exact rationals;
where the source compares against `mean ± 3·std` the embedding compares
`(t - mean)² ≤ 9·var`, which is equivalent for the nonnegative square
root and keeps every definition inside `ℚ`. -/

/-- Pandas `group["travel_time"].mean()`. -/
def sampleMean (g : List ℚ) : ℚ := g.sum / g.length

/-- Pandas `group["travel_time"].std()` squared: the `ddof = 1` sample variance
`Σ (x - mean)² / (n - 1)`. -/
def sampleVar (g : List ℚ) : ℚ :=
  ((g.map (fun x => (x - sampleMean g) ^ 2)).sum) / ((g.length : ℚ) - 1)

/-- Stage 1 of `remove_outliers` (data_processing.py line 390):
`group = group[group["travel_time"] <= 7200]`. -/
def capFilter (g : List ℚ) : List ℚ := g.filter (fun t => decide (t ≤ 7200))

/-- Function `remove_outliers` (data_processing.py lines 388-398): cap at 7200
seconds, then keep the samples within `mean ± 3·std` of the capped group.
On a capped group with fewer than two samples pandas' `std()` is `NaN`
(`ddof = 1`), both `NaN` comparisons are `False`, and every row is
dropped — the `length < 2` arm. -/
def removeOutliers (g : List ℚ) : List ℚ :=
  let g1 := capFilter g
  if g1.length < 2 then []
  else g1.filter (fun t => decide ((t - sampleMean g1) ^ 2 ≤ 9 * sampleVar g1))

/-- Eleven identical samples, a moderate one, and one at the cap: the
first 3σ pass removes only 7200, the second pass removes 1000 as well. -/
def gC6 : List ℚ := [0, 0, 0, 0, 0, 0, 0, 0, 0, 0, 0, 1000, 7200]

/-- C6 is false of the code: re-applying `remove_outliers` to its own
output removes further samples, because the 3σ band is recomputed over
the already-filtered group. -/
theorem c6_counterexample :
    removeOutliers (removeOutliers gC6) ≠ removeOutliers gC6 := by
  have h1 : removeOutliers gC6 = [0, 0, 0, 0, 0, 0, 0, 0, 0, 0, 0, 1000] := by
    norm_num [removeOutliers, capFilter, sampleMean, sampleVar, gC6, List.filter_cons]
  have h2 : removeOutliers [0, 0, 0, 0, 0, 0, 0, 0, 0, 0, 0, 1000] =
      [0, 0, 0, 0, 0, 0, 0, 0, 0, 0, 0] := by
    norm_num [removeOutliers, capFilter, sampleMean, sampleVar, List.filter_cons]
  rw [h1, h2]
  intro he
  have hlen := congrArg List.length he
  simp at hlen

/-- C6 (amended): the hard-cap stage is idempotent, and the full
two-stage filter only ever discards samples (its output is a sublist of
its input); full idempotence fails (see the counterexample). -/
theorem c6_amended_cap_idempotent_and_contractive :
    (∀ g : List ℚ, capFilter (capFilter g) = capFilter g) ∧
    (∀ g : List ℚ, (removeOutliers g).Sublist g) := by
  constructor
  · intro g
    rw [capFilter, capFilter, List.filter_filter]
    simp
  · intro g
    rw [removeOutliers]
    by_cases h : (capFilter g).length < 2
    · rw [if_pos h]
      exact List.nil_sublist g
    · rw [if_neg h]
      exact (List.filter_sublist _).trans (List.filter_sublist _)

/-- The tuple computed by `get_wait_time` for one candidate bus row
(data_processing.py lines 254-271) when the matched travel-time group `g`
is nonempty: `(mean/60, row_time + mean, row_time + mean - 2·std,
row_time + mean + 2·std)`.  `s` stands for the float square root
`std_wait_seconds`, characterized in the theorems by `0 ≤ s` and
`s² = sampleVar g`. -/
def getWaitTime (t : ℚ) (g : List ℚ) (s : ℚ) : ℚ × ℚ × ℚ × ℚ :=
  (sampleMean g / 60, t + sampleMean g, t + sampleMean g - 2 * s, t + sampleMean g + 2 * s)

/-- C7: for a bus last seen at time `t` whose station pair has
travel-time statistics with mean 120 s and std 20 s, the predictor
returns predicted arrival `t + 120` and the 2σ band
`[t + 80, t + 160]`. -/
theorem c7_wait_prediction (t : ℚ) (g : List ℚ) (s : ℚ)
    (hs0 : 0 ≤ s) (hs1 : s ^ 2 = sampleVar g)
    (hm : sampleMean g = 120) (hv : sampleVar g = 400) :
    (getWaitTime t g s).2.1 = t + 120 ∧
    (getWaitTime t g s).2.2.1 = t + 80 ∧
    (getWaitTime t g s).2.2.2 = t + 160 := by
  have h2 : s ^ 2 = 400 := by rw [hs1, hv]
  have h3 : (s - 20) * (s + 20) = 0 := by
    have : (s - 20) * (s + 20) = s ^ 2 - 400 := by ring
    rw [this, h2]
    ring
  have hs : s = 20 := by
    rcases mul_eq_zero.mp h3 with h | h
    · linarith
    · linarith
  refine ⟨?_, ?_, ?_⟩ <;> simp [getWaitTime, hm, hs] <;> ring

theorem c7_wait_prediction_witness :
    (getWaitTime 0 [100, 120, 140] 20).2.1 = 0 + 120 ∧
    (getWaitTime 0 [100, 120, 140] 20).2.2.1 = 0 + 80 ∧
    (getWaitTime 0 [100, 120, 140] 20).2.2.2 = 0 + 160 :=
  c7_wait_prediction 0 [100, 120, 140] 20 (by norm_num)
    (by norm_num [sampleVar, sampleMean]) (by norm_num [sampleMean])
    (by norm_num [sampleVar, sampleMean])

/-- One candidate-bus row of `get_recent_bus` after
`drop_duplicates(subset="bus_plate")` (data_processing.py line 242): the
plate, the station it was last seen at, and that arrival time. -/
structure BusRow where
  plate : String
  station : String
  time : ℚ
deriving DecidableEq

/-- Function `get_wait_time` for one row: with no matching travel-time rows for
`(current station, wait station)` the source returns a tuple of `np.nan`
(line 253), i.e. missing prediction values — `none` here; otherwise the
computed prediction tuple.  `stdf` stands for the float `Series.std()`. -/
def waitRowResult (stdf : List ℚ → ℚ) (tstats : Option (List ℚ)) (t : ℚ) :
    Option (ℚ × ℚ × ℚ × ℚ) :=
  match tstats with
  | none => none
  | some g => some (getWaitTime t g (stdf g))

/-- The observable result table of `get_recent_bus`
(data_processing.py lines 207-312).  `fetch` is the live-feed call
(`none` = the request raised, caught by the `except` → empty table);
an empty candidate list makes the SQL `IN ()` clause raise → empty table;
`data.apply(get_wait_time, axis=1)` produces exactly one output row per
candidate row, missing statistics producing missing values, never
dropping the row; and when *every* row lacks statistics the row tuples
all have width 3 instead of 4, the 4-column assignment raises, and the
`except` again returns the empty table. -/
def getRecentBus (stdf : List ℚ → ℚ) (fetch : Option (List BusRow))
    (stats : String → Option (List ℚ)) : List (BusRow × Option (ℚ × ℚ × ℚ × ℚ)) :=
  match fetch with
  | none => []
  | some buses =>
    if buses.isEmpty then []
    else if (buses.map (fun b => (b, waitRowResult stdf (stats b.station) b.time))).all
        (fun r => r.2.isNone) then []
    else buses.map (fun b => (b, waitRowResult stdf (stats b.station) b.time))

/-- Candidate buses for the C8 counterexample: `"A"` has statistics for
its station, `"B"` does not. -/
def busesC8 : List BusRow := [⟨"A", "S1", 0⟩, ⟨"B", "S2", 0⟩]

/-- Travel-time statistics present only for station `"S1"`. -/
def statsC8 : String → Option (List ℚ) :=
  fun c => if c = "S1" then some [100, 120, 140] else none

/-- C8 is false of the code in its exclusion part: a bus whose station
pair has no travel-time statistics still appears in the returned table
(with missing prediction values) instead of being excluded. -/
theorem c8_counterexample :
    statsC8 "S2" = none ∧
    waitRowResult (fun _ => 0) (statsC8 "S2") 0 = none ∧
    "B" ∈ (getRecentBus (fun _ => 0) (some busesC8) statsC8).map
        (fun r => r.1.plate) := by
  refine ⟨rfl, rfl, ?_⟩
  decide

/-- C8 (amended): a failed fetch or an empty candidate list yields an
explicit empty table; otherwise the table is either empty (the
all-statistics-missing error path) or contains every candidate bus — a
bus with missing statistics is never individually excluded.  The
embedding is a total function: every failure path returns the empty
table, none raises. -/
theorem c8_amended_no_individual_exclusion (stdf : List ℚ → ℚ)
    (stats : String → Option (List ℚ)) (buses : List BusRow) :
    getRecentBus stdf none stats = [] ∧
    getRecentBus stdf (some []) stats = [] ∧
    ((getRecentBus stdf (some buses) stats = []) ∨
      (getRecentBus stdf (some buses) stats).map (fun r => r.1) = buses) := by
  refine ⟨rfl, rfl, ?_⟩
  unfold getRecentBus
  dsimp only
  by_cases he : buses.isEmpty = true
  · rw [if_pos he]
    exact Or.inl rfl
  · rw [if_neg he]
    by_cases ha : (buses.map (fun b => (b, waitRowResult stdf (stats b.station) b.time))).all
        (fun r => r.2.isNone) = true
    · rw [if_pos ha]
      exact Or.inl rfl
    · rw [if_neg ha]
      refine Or.inr ?_
      rw [List.map_map]
      show List.map id buses = buses
      exact List.map_id buses

end MacauBus
